import Mathlib

/-!
Verification development for the Luma Windows Agent GUI (`src/main.py`).

The repository is a single-file tkinter application wrapping an external
agent library.  This file gives a shallow embedding of the pure content of
the functions the claims are about: Python strings are `List Char`,
stateful methods of `WindowsAgentGUI` become functions on an explicit
`AppState` record, the external world (file writes, the adapter call, the
asyncio cancellation flag) is passed in as explicit parameters, and side
effects (console logging, dialogs) are returned as explicit effect lists.
-/

namespace Luma

/-! ## Python string primitives -/

/-- Python whitespace characters recognised by `str.strip()`. -/
def isPySpace (c : Char) : Bool :=
  c = ' ' || c = '\t' || c = '\n' || c = '\r' || c = '\x0b' || c = '\x0c'

/-- Model of Python `str.strip()`: drop whitespace from both ends. -/
def pyStrip (l : List Char) : List Char :=
  ((l.dropWhile isPySpace).reverse.dropWhile isPySpace).reverse

/-- Model of Python `pat in s` restricted to `pat` matching at the head. -/
def listStartsWith : List Char → List Char → Bool
  | [], _ => true
  | _ :: _, [] => false
  | p :: ps, c :: cs => p = c && listStartsWith ps cs

/-- Model of the Python substring test `pat in s`. -/
def containsSub (pat : List Char) : List Char → Bool
  | [] => listStartsWith pat []
  | c :: cs => listStartsWith pat (c :: cs) || containsSub pat cs

/-! ## `str.strip` facts -/

theorem dropWhile_idem (p : Char → Bool) (l : List Char) :
    (l.dropWhile p).dropWhile p = l.dropWhile p := by
  induction l with
  | nil => rfl
  | cons c cs ih =>
      by_cases h : p c
      · simp [List.dropWhile, h, ih]
      · simp [List.dropWhile, h]

theorem dropWhile_head_not {p : Char → Bool} {l r : List Char} {c : Char}
    (h : l.dropWhile p = c :: r) : p c = false := by
  induction l with
  | nil => simp [List.dropWhile] at h
  | cons d ds ih =>
      by_cases hd : p d
      · exact ih (by simpa [List.dropWhile, hd] using h)
      · rw [List.dropWhile_cons_of_neg (by simpa using hd)] at h
        cases h
        simpa using hd

theorem dropWhile_append_singleton {p : Char → Bool} {c : Char}
    (hc : p c = false) (u : List Char) :
    ∃ v, (u ++ [c]).dropWhile p = v ++ [c] := by
  induction u with
  | nil => exact ⟨[], by simp [List.dropWhile, hc]⟩
  | cons d ds ih =>
      by_cases hd : p d
      · obtain ⟨v, hv⟩ := ih
        exact ⟨v, by simpa [List.dropWhile, hd] using hv⟩
      · exact ⟨d :: ds, by simp [List.dropWhile, hd]⟩

/-- Stripping is idempotent. -/
theorem pyStrip_idem (l : List Char) : pyStrip (pyStrip l) = pyStrip l := by
  unfold pyStrip
  rcases hz : (l.dropWhile isPySpace) with _ | ⟨c, z⟩
  · simp
  · have hc : isPySpace c = false := dropWhile_head_not hz
    obtain ⟨v, hv⟩ := dropWhile_append_singleton hc z.reverse
    have hrev : (c :: z).reverse = z.reverse ++ [c] := by simp
    rw [hrev, hv]
    have h1 : (v ++ [c]).reverse.dropWhile isPySpace = (v ++ [c]).reverse := by
      simp only [List.reverse_append, List.reverse_cons, List.reverse_nil,
        List.nil_append, List.singleton_append]
      rw [List.dropWhile_cons_of_neg (by simpa using hc)]
    rw [h1]
    have h2 : (v ++ [c]).reverse.reverse.dropWhile isPySpace = v ++ [c] := by
      rw [List.reverse_reverse]
      calc (v ++ [c]).dropWhile isPySpace
          = ((z.reverse ++ [c]).dropWhile isPySpace).dropWhile isPySpace := by rw [hv]
        _ = (z.reverse ++ [c]).dropWhile isPySpace := dropWhile_idem _ _
        _ = v ++ [c] := hv
    rw [h2]

/-! ## The tee log sink (`TeeOutput` inside `capture_agent_output`)

`TeeOutput.write` appends the incoming text to an internal buffer and, in a
loop, splits off everything up to the first line break, classifies the
complete line and forwards it to the message queue.  `TeeOutput.flush`
forwards any remaining (partial) line.  We model the buffer as a
`List Char` and the forwarded messages as a `List (List Char)`. -/

/-- Split a buffer at its first line break, as Python
`buffer.split(chr 10, 1)` does when a line break is present:
returns the text before the break and the text after it. -/
def splitOnceNl : List Char → Option (List Char × List Char)
  | [] => none
  | c :: cs =>
      if c = '\n' then some ([], cs)
      else
        match splitOnceNl cs with
        | none => none
        | some (a, r) => some (c :: a, r)

theorem splitOnceNl_length {l a r : List Char}
    (h : splitOnceNl l = some (a, r)) : r.length < l.length := by
  induction l generalizing a r with
  | nil => simp [splitOnceNl] at h
  | cons c cs ih =>
      by_cases hc : c = '\n'
      · rw [splitOnceNl, if_pos hc] at h
        cases h
        simp
      · rw [splitOnceNl, if_neg hc] at h
        rcases hs : splitOnceNl cs with _ | ⟨a', r'⟩
        · rw [hs] at h; cases h
        · rw [hs] at h
          cases h
          exact Nat.lt_trans (ih hs) (by simp)

/-- Full split of a buffer into line-break separated segments; the last
segment is the text after the final break (the partial line). -/
def splitNl : List Char → List (List Char)
  | [] => [[]]
  | c :: cs =>
      if c = '\n' then [] :: splitNl cs
      else
        match splitNl cs with
        | [] => [[c]]
        | s :: ss => (c :: s) :: ss

theorem splitNl_ne_nil (l : List Char) : splitNl l ≠ [] := by
  cases l with
  | nil => simp [splitNl]
  | cons c cs =>
      by_cases hc : c = '\n'
      · simp [splitNl, hc]
      · rcases hs : splitNl cs with _ | ⟨s, ss⟩ <;> simp [splitNl, hc, hs]

theorem splitNl_of_none {l : List Char} (h : splitOnceNl l = none) :
    splitNl l = [l] := by
  induction l with
  | nil => rfl
  | cons c cs ih =>
      by_cases hc : c = '\n'
      · rw [splitOnceNl, if_pos hc] at h; cases h
      · rw [splitOnceNl, if_neg hc] at h
        rcases hs : splitOnceNl cs with _ | ⟨a, r⟩
        · rw [splitNl, if_neg hc, ih hs]
        · rw [hs] at h; cases h

theorem splitNl_of_some {l a r : List Char} (h : splitOnceNl l = some (a, r)) :
    splitNl l = a :: splitNl r := by
  induction l generalizing a with
  | nil => simp [splitOnceNl] at h
  | cons c cs ih =>
      by_cases hc : c = '\n'
      · rw [splitOnceNl, if_pos hc] at h
        cases h
        rw [splitNl, if_pos hc]
      · rw [splitOnceNl, if_neg hc] at h
        rcases hs : splitOnceNl cs with _ | ⟨a', r'⟩
        · rw [hs] at h; cases h
        · rw [hs] at h
          cases h
          rw [splitNl, if_neg hc, ih hs]

/-- Method `TeeOutput.format_agent_log`: strip the line, return nothing for an
empty line, otherwise prefix an emoji marker chosen by substring matching
(in the order of the Python `elif` chain). -/
def format_agent_log (line : List Char) : Option (List Char) :=
  let l := pyStrip line
  if l = [] then none
  else if containsSub "Iteration".toList l then some ("🔄 ".toList ++ l)
  else if containsSub "Evaluate".toList l then some ("🔍 ".toList ++ l)
  else if containsSub "Memory".toList l then some ("🧠 ".toList ++ l)
  else if containsSub "Thought".toList l then some ("💭 ".toList ++ l)
  else if containsSub "Action".toList l then some ("⚡ ".toList ++ l)
  else if containsSub "Observation".toList l then some ("👁️ ".toList ++ l)
  else if containsSub "Final Answer".toList l then some ("✅ ".toList ++ l)
  else if containsSub "ERROR".toList (l.map Char.toUpper)
          || containsSub "EXCEPTION".toList (l.map Char.toUpper) then
    some ("❌ ".toList ++ l)
  else if containsSub "WARNING".toList (l.map Char.toUpper) then
    some ("⚠️ ".toList ++ l)
  else some l

/-- The messages one line contributes to the queue.  Both `write` and
`flush` run the same guarded emission: skip the line when it strips to
nothing, format it, and enqueue the formatted text when it is truthy. -/
def classify_line (line : List Char) : List (List Char) :=
  if pyStrip line = [] then []
  else
    match format_agent_log (pyStrip line) with
    | none => []
    | some f => if f = [] then [] else [f]

theorem classify_line_length_le (line : List Char) :
    (classify_line line).length ≤ 1 := by
  unfold classify_line
  split
  · simp
  · rcases format_agent_log (pyStrip line) with _ | f
    · simp
    · by_cases hf : f = [] <;> simp [hf]

/-- The `while` loop of `TeeOutput.write`: as long as the buffer holds a
line break, split off the first line, emit its classification, and
continue on the remainder.  Returns the final buffer and the emitted
messages in order. -/
def drainWrite (buf : List Char) : List Char × List (List Char) :=
  match h : splitOnceNl buf with
  | none => (buf, [])
  | some (line, rest) =>
      let p := drainWrite rest
      (p.1, classify_line line ++ p.2)
termination_by buf.length
decreasing_by exact splitOnceNl_length h

theorem drainWrite_of_none {buf : List Char} (h : splitOnceNl buf = none) :
    drainWrite buf = (buf, []) := by
  rw [drainWrite, h]

theorem drainWrite_of_some {buf line rest : List Char}
    (h : splitOnceNl buf = some (line, rest)) :
    drainWrite buf = ((drainWrite rest).1, classify_line line ++ (drainWrite rest).2) := by
  rw [drainWrite, h]

theorem drainWrite_no_nl (buf : List Char) :
    splitOnceNl (drainWrite buf).1 = none := by
  induction buf using drainWrite.induct with
  | case1 buf h => rw [drainWrite_of_none h]; exact h
  | case2 buf line rest h ih => rw [drainWrite_of_some h]; exact ih

theorem splitOnceNl_append_some {x a r : List Char}
    (h : splitOnceNl x = some (a, r)) (y : List Char) :
    splitOnceNl (x ++ y) = some (a, r ++ y) := by
  induction x generalizing a with
  | nil => simp [splitOnceNl] at h
  | cons c cs ih =>
      by_cases hc : c = '\n'
      · rw [splitOnceNl, if_pos hc] at h
        cases h
        rw [List.cons_append, splitOnceNl, if_pos hc]
      · rw [splitOnceNl, if_neg hc] at h
        rcases hs : splitOnceNl cs with _ | ⟨a', r'⟩
        · rw [hs] at h; cases h
        · rw [hs] at h
          cases h
          rw [List.cons_append, splitOnceNl, if_neg hc, ih hs]

/-- Draining a buffer in two stages (first `x`, then the leftover buffer
followed by `y`) produces the same final buffer and the same messages, in
order, as draining `x ++ y` at once. -/
theorem drainWrite_append (x y : List Char) :
    drainWrite (x ++ y) =
      ((drainWrite ((drainWrite x).1 ++ y)).1,
       (drainWrite x).2 ++ (drainWrite ((drainWrite x).1 ++ y)).2) := by
  induction x using drainWrite.induct with
  | case1 x h => rw [drainWrite_of_none h]; simp
  | case2 x line rest h ih =>
      rw [drainWrite_of_some (splitOnceNl_append_some h y), drainWrite_of_some h, ih]
      simp

/-- The last segment of a split (the leftover partial line). -/
def lastPart : List (List Char) → List Char
  | [] => []
  | [s] => s
  | _ :: s :: ss => lastPart (s :: ss)

/-- All segments of a split except the last (the complete lines). -/
def initParts : List (List Char) → List (List Char)
  | [] => []
  | [_] => []
  | s :: t :: ss => s :: initParts (t :: ss)

theorem lastPart_cons (a : List Char) {l : List (List Char)} (h : l ≠ []) :
    lastPart (a :: l) = lastPart l := by
  rcases l with _ | ⟨s, ss⟩
  · simp at h
  · rfl

theorem initParts_cons (a : List Char) {l : List (List Char)} (h : l ≠ []) :
    initParts (a :: l) = a :: initParts l := by
  rcases l with _ | ⟨s, ss⟩
  · simp at h
  · rfl

/-- The drain loop emits the classifications of the complete lines of the
buffer, in order, and keeps the trailing partial line as its new buffer. -/
theorem drainWrite_splitNl (buf : List Char) :
    drainWrite buf =
      (lastPart (splitNl buf), ((initParts (splitNl buf)).map classify_line).flatten) := by
  induction buf using drainWrite.induct with
  | case1 buf h => rw [drainWrite_of_none h, splitNl_of_none h]; rfl
  | case2 buf line rest h ih =>
      rw [drainWrite_of_some h, splitNl_of_some h, ih,
        lastPart_cons line (splitNl_ne_nil rest),
        initParts_cons line (splitNl_ne_nil rest)]
      simp

/-- Method `TeeOutput.write`: append the chunk to the buffer and run the drain
loop, forwarding each complete line. -/
def tee_write (buf text : List Char) : List Char × List (List Char) :=
  drainWrite (buf ++ text)

/-- Method `TeeOutput.flush`: if the buffer strips to something non-empty, format
it and forward the result, clearing the buffer; otherwise leave the buffer
alone and forward nothing. -/
def tee_flush (buf : List Char) : List Char × List (List Char) :=
  if pyStrip buf = [] then (buf, [])
  else
    match format_agent_log (pyStrip buf) with
    | none => ([], [])
    | some f => ([], if f = [] then [] else [f])

theorem tee_flush_emits_classify (buf : List Char) :
    (tee_flush buf).2 = classify_line buf := by
  unfold tee_flush classify_line
  split
  · rfl
  · rcases format_agent_log (pyStrip buf) with _ | f <;> rfl

/-- A second flush forwards nothing: the first flush cleared the buffer
(or it only held whitespace, which is never forwarded). -/
theorem tee_flush_empty_buffer : tee_flush ([] : List Char) = ([], []) := rfl

theorem tee_flush_cases (buf : List Char) :
    tee_flush buf = (buf, []) ∨ (tee_flush buf).1 = [] := by
  unfold tee_flush
  split
  · left; rfl
  · right
    rcases format_agent_log (pyStrip buf) with _ | f <;> rfl

/-- A second flush forwards nothing: the first flush cleared the buffer
(or it only held whitespace, which is never forwarded). -/
theorem tee_flush_twice (buf : List Char) :
    (tee_flush (tee_flush buf).1).2 = [] := by
  rcases tee_flush_cases buf with he | he
  · rw [he]
    show (tee_flush buf).2 = []
    rw [he]
  · rw [he, tee_flush_empty_buffer]

/-- One call of `capture_agent_output` as seen by the log sink: a sequence
of chunks written during `agent.invoke`, followed by the final flush.
Returns every message forwarded to the queue, in order. -/
def tee_run (chunks : List (List Char)) : List (List Char) :=
  let final := chunks.foldl
    (fun st t => let p := tee_write st.1 t; (p.1, st.2 ++ p.2))
    (([] : List Char), ([] : List (List Char)))
  final.2 ++ (tee_flush final.1).2

theorem tee_run_foldl (chunks : List (List Char)) :
    ∀ (b : List Char) (acc : List (List Char)), splitOnceNl b = none →
      chunks.foldl (fun st t => let p := tee_write st.1 t; (p.1, st.2 ++ p.2)) (b, acc) =
        ((drainWrite (b ++ chunks.flatten)).1,
         acc ++ (drainWrite (b ++ chunks.flatten)).2) := by
  induction chunks with
  | nil =>
      intro b acc hb
      simp [drainWrite_of_none hb]
  | cons t ts ih =>
      intro b acc hb
      rw [List.foldl_cons]
      have step : (let p := tee_write (b, acc).1 t; (p.1, (b, acc).2 ++ p.2)) =
          ((drainWrite (b ++ t)).1, acc ++ (drainWrite (b ++ t)).2) := rfl
      rw [step, ih _ _ (drainWrite_no_nl (b ++ t))]
      have comp := drainWrite_append (b ++ t) ts.flatten
      rw [List.flatten_cons, ← List.append_assoc, comp]
      simp

theorem emit_initParts_lastPart (S : List (List Char)) (h : S ≠ []) :
    ((initParts S).map classify_line).flatten ++ classify_line (lastPart S) =
      (S.map classify_line).flatten := by
  induction S using lastPart.induct with
  | case1 => simp at h
  | case2 s => simp [initParts, lastPart]
  | case3 s t ss ih =>
      have ht : t :: ss ≠ [] := by simp
      calc (((initParts (s :: t :: ss)).map classify_line).flatten)
            ++ classify_line (lastPart (s :: t :: ss))
          = classify_line s ++
              ((((initParts (t :: ss)).map classify_line).flatten)
                ++ classify_line (lastPart (t :: ss))) := by
            simp [initParts, lastPart]
        _ = classify_line s ++ ((t :: ss).map classify_line).flatten := by rw [ih ht]
        _ = ((s :: t :: ss).map classify_line).flatten := by simp

/-- C4: every complete line written to the tee during a call is classified
and forwarded to the queue at most once (each line yields at most one
message), in the order written, and the trailing partial line is flushed
exactly once at call completion: the forwarded messages are exactly the
per-line classifications of the full written text, last partial segment
included. -/
theorem C4_tee_forwards_each_line_once (chunks : List (List Char)) :
    tee_run chunks = ((splitNl chunks.flatten).map classify_line).flatten ∧
      ∀ line : List Char, (classify_line line).length ≤ 1 := by
  constructor
  · unfold tee_run
    rw [tee_run_foldl chunks [] [] rfl]
    simp only [List.nil_append]
    rw [drainWrite_splitNl, tee_flush_emits_classify]
    exact emit_initParts_lastPart _ (splitNl_ne_nil _)
  · exact classify_line_length_le

/-! ## Rule injection (`execute_agent_task_async`, lines 964-979)

Before dispatch the runner filters the configured rules down to the
non-empty stripped ones and, when any remain, prepends a numbered
instruction block to the raw command. -/

/-- The numbered lines of the instruction block, starting at index `i`:
Python `for i, rule in enumerate(valid_rules, 1): rules_text += ...`. -/
def numberRules : Nat → List (List Char) → List Char
  | _, [] => []
  | i, r :: rs =>
      (toString i).toList ++ ". ".toList ++ r ++ ['\n'] ++ numberRules (i + 1) rs

/-- Python `[rule.strip() for rule in rules if rule.strip()]`. -/
def valid_rules (rules : List (List Char)) : List (List Char) :=
  (rules.map pyStrip).filter (fun r => r ≠ [])

/-- The string handed to `agent.invoke`: the raw command, or, when any
non-empty rules are configured, the instruction block followed by
`Now complete this task:` and the command. -/
def enhance_query (rules : List (List Char)) (query : List Char) : List Char :=
  if rules ≠ [] then
    if valid_rules rules ≠ [] then
      "IMPORTANT: Follow these rules while completing the task:\n".toList
        ++ numberRules 1 (valid_rules rules)
        ++ "\nNow complete this task: ".toList ++ query
    else query
  else query

theorem numberRules_contains (vr : List (List Char)) :
    ∀ (j i : Nat) (hi : i < vr.length), ∃ pre post,
      numberRules j vr =
        pre ++ ((toString (j + i)).toList ++ ". ".toList ++ vr[i]) ++ post := by
  induction vr with
  | nil => intro j i hi; simp at hi
  | cons r rs ih =>
      intro j i hi
      cases i with
      | zero =>
          refine ⟨[], '\n' :: numberRules (j + 1) rs, ?_⟩
          simp [numberRules]
      | succ i =>
          obtain ⟨pre, post, hp⟩ := ih (j + 1) i (by simpa using hi)
          refine ⟨(toString j).toList ++ ". ".toList ++ r ++ ['\n'] ++ pre, post, ?_⟩
          have harith : j + 1 + i = j + (i + 1) := by omega
          rw [numberRules, hp, harith]
          simp

/-- C5: whenever any configured rule survives stripping, the adapter
receives the raw command with the numbered instruction block prepended:
the enhanced string ends with the command, and for each index `i` it
contains the substring `⟨i+1⟩. ⟨rule⟩`.  (Given rules `A`, `B` and
command `C` this yields substrings `1. A` and `2. B` and suffix `C`.) -/
theorem C5_rule_injection (rules : List (List Char)) (query : List Char)
    (h : valid_rules rules ≠ []) :
    (∃ pre, enhance_query rules query = pre ++ query) ∧
      ∀ (i : Nat) (hi : i < (valid_rules rules).length), ∃ pre post,
        enhance_query rules query =
          pre ++ ((toString (i + 1)).toList ++ ". ".toList ++ (valid_rules rules)[i])
            ++ post := by
  have hr : rules ≠ [] := by
    intro he
    apply h
    rw [he]
    rfl
  rw [enhance_query, if_pos hr, if_pos h]
  constructor
  · refine ⟨"IMPORTANT: Follow these rules while completing the task:\n".toList
      ++ numberRules 1 (valid_rules rules) ++ "\nNow complete this task: ".toList, ?_⟩
    simp
  · intro i hi
    obtain ⟨pre, post, hp⟩ := numberRules_contains (valid_rules rules) 1 i hi
    have harith : 1 + i = i + 1 := by omega
    rw [harith] at hp
    refine ⟨"IMPORTANT: Follow these rules while completing the task:\n".toList ++ pre,
      post ++ "\nNow complete this task: ".toList ++ query, ?_⟩
    rw [hp]
    simp

/-- Closed witness for C5 at rules `["A", "B"]` and command `"C"`. -/
theorem C5_rule_injection_witness :
    (∃ pre, enhance_query ["A".toList, "B".toList] "C".toList = pre ++ "C".toList) ∧
      ∀ (i : Nat) (hi : i < (valid_rules ["A".toList, "B".toList]).length), ∃ pre post,
        enhance_query ["A".toList, "B".toList] "C".toList =
          pre ++ ((toString (i + 1)).toList ++ ". ".toList
            ++ (valid_rules ["A".toList, "B".toList])[i]) ++ post :=
  C5_rule_injection ["A".toList, "B".toList] "C".toList (by decide)

/-! ## The task runner (`execute_agent_task_async`, lines 951-1017)

The coroutine checks the asyncio cancellation flag at three sites: once
after building the enhanced query, once immediately before handing the
blocking `capture_agent_output` call to the executor, and once immediately
after it returns.  A set flag raises `CancelledError`; an adapter failure
is caught and reported as an error message; otherwise the result is
reported.  The `finally` block always clears `is_task_running`.  The flag
values observed at the three sites and the adapter outcome are inputs of
the model. -/

structure AdapterResult where
  content : List Char
deriving DecidableEq, Repr

inductive ExecOutcome where
  /-- Normal completion: the result is reported to the queue. -/
  | completed (r : AdapterResult)
  /-- The adapter raised: caught and reported as an error message. -/
  | errorReported (msg : List Char)
  /-- A `CancelledError` was raised past the caller. -/
  | cancelled
deriving DecidableEq, Repr

structure ExecEnv where
  /-- Flag value at the check after rule injection (line 982). -/
  cancelled_at_start : Bool
  /-- Flag value at the check right before the executor call (line 995). -/
  cancelled_before_call : Bool
  /-- Flag value at the check right after the executor call (line 1002). -/
  cancelled_after_call : Bool
  /-- Outcome of `capture_agent_output` on the enhanced query. -/
  adapter : Except (List Char) AdapterResult
deriving Repr

structure ExecResult where
  outcome : ExecOutcome
  /-- Whether the blocking adapter call was started. -/
  invoked : Bool
  /-- The query string handed to the adapter, when it was invoked. -/
  sent_query : Option (List Char)
  /-- Value of `is_task_running` after the `finally` block. -/
  running_after : Bool
deriving DecidableEq, Repr

def execute_agent_task_async (rules : List (List Char)) (query : List Char)
    (env : ExecEnv) : ExecResult :=
  let enhanced := enhance_query rules query
  if env.cancelled_at_start then ⟨.cancelled, false, none, false⟩
  else if env.cancelled_before_call then ⟨.cancelled, false, none, false⟩
  else
    match env.adapter with
    | .error e => ⟨.errorReported e, true, some enhanced, false⟩
    | .ok r =>
        if env.cancelled_after_call then ⟨.cancelled, true, some enhanced, false⟩
        else ⟨.completed r, true, some enhanced, false⟩

/-- C2: the runner checks the cancellation flag immediately before the
blocking adapter call and immediately after it returns; a flag set at the
first checkpoint cancels without ever invoking the adapter, and a flag set
at the second cancels instead of reporting the adapter's result. -/
theorem C2_cancellation_checkpoints (rules : List (List Char)) (query : List Char)
    (env : ExecEnv) :
    (env.cancelled_before_call = true →
      (execute_agent_task_async rules query env).outcome = .cancelled ∧
        (execute_agent_task_async rules query env).invoked = false) ∧
    (∀ r : AdapterResult, env.adapter = .ok r → env.cancelled_after_call = true →
      (execute_agent_task_async rules query env).outcome = .cancelled) := by
  constructor
  · intro hb
    unfold execute_agent_task_async
    by_cases hs : env.cancelled_at_start = true
    · rw [if_pos hs]
      exact ⟨rfl, rfl⟩
    · rw [if_neg hs, if_pos hb]
      exact ⟨rfl, rfl⟩
  · intro r hr ha
    unfold execute_agent_task_async
    rw [hr]
    by_cases hs : env.cancelled_at_start = true
    · rw [if_pos hs]
    · by_cases hb : env.cancelled_before_call = true
      · rw [if_neg hs, if_pos hb]
      · rw [if_neg hs, if_neg hb]
        simp only [ha, if_pos]

/-- Closed witness for C2: both checkpoints exercised on concrete
environments. -/
theorem C2_cancellation_checkpoints_witness :
    ((execute_agent_task_async [] "go".toList
        ⟨false, true, false, .ok ⟨"done".toList⟩⟩).outcome = .cancelled ∧
      (execute_agent_task_async [] "go".toList
        ⟨false, true, false, .ok ⟨"done".toList⟩⟩).invoked = false) ∧
    (execute_agent_task_async [] "go".toList
        ⟨false, false, true, .ok ⟨"done".toList⟩⟩).outcome = .cancelled := by
  refine ⟨(C2_cancellation_checkpoints [] "go".toList _).1 rfl, ?_⟩
  exact (C2_cancellation_checkpoints [] "go".toList
    ⟨false, false, true, .ok ⟨"done".toList⟩⟩).2 ⟨"done".toList⟩ rfl rfl

/-! ## Rules persistence (`load_rules`, `save_rules_from_settings_ui`,
`_save_rules_to_file`) -/

/-- JSON values, as produced by Python `json.load`. -/
inductive Json where
  | null
  | bool (b : Bool)
  | num (n : Int)
  | str (s : List Char)
  | arr (elems : List Json)
  | obj (fields : List (List Char × Json))

/-- The state of `rules.json` as `load_rules` can encounter it. -/
inductive RulesFile where
  /-- Here `os.path.exists` is false. -/
  | missing
  /-- Opening or parsing raises (`JSONDecodeError` or other). -/
  | unreadable
  /-- The file parses to a JSON value. -/
  | parsed (v : Json)

/-- The comprehension `[rule.strip() for rule in rules if rule.strip()]`:
returns `none` when some element is not a string (Python raises
`AttributeError` on `.strip`, caught by the bare `except`). -/
def stripAll? : List Json → Option (List (List Char))
  | [] => some []
  | Json.str s :: rest =>
      match stripAll? rest with
      | some out => some (if pyStrip s ≠ [] then pyStrip s :: out else out)
      | none => none
  | Json.null :: _ => none
  | Json.bool _ :: _ => none
  | Json.num _ :: _ => none
  | Json.arr _ :: _ => none
  | Json.obj _ :: _ => none

/-- Method `load_rules`: missing file, parse failure, a non-list document, or a
list with a non-string element all yield `[]`; a list of strings yields
its stripped non-empty elements in order. -/
def load_rules : RulesFile → List (List Char)
  | .missing => []
  | .unreadable => []
  | .parsed Json.null => []
  | .parsed (Json.bool _) => []
  | .parsed (Json.num _) => []
  | .parsed (Json.str _) => []
  | .parsed (Json.arr elems) =>
      match stripAll? elems with
      | some out => out
      | none => []
  | .parsed (Json.obj _) => []

theorem stripAll?_mem {l : List Json} {out : List (List Char)}
    (h : stripAll? l = some out) :
    ∀ r ∈ out, r ≠ [] ∧ ∃ s, r = pyStrip s := by
  induction l generalizing out with
  | nil =>
      cases h
      simp
  | cons e rest ih =>
      rcases e with _ | b | n | s | es | fs
      · cases h
      · cases h
      · cases h
      · rw [stripAll?] at h
        rcases hr : stripAll? rest with _ | out'
        · rw [hr] at h; cases h
        · rw [hr] at h
          cases h
          intro r hm
          by_cases hs : pyStrip s = []
          · rw [if_neg (by simpa using hs)] at hm
            exact ih hr r hm
          · rw [if_pos (by simpa using hs)] at hm
            rcases List.mem_cons.mp hm with rfl | hm2
            · exact ⟨hs, s, rfl⟩
            · exact ih hr r hm2
      · cases h
      · cases h

theorem stripAll?_non_string {l : List Json} {e : Json}
    (he : e ∈ l) (hs : ∀ s, e ≠ Json.str s) : stripAll? l = none := by
  induction l with
  | nil => simp at he
  | cons x rest ih =>
      rcases List.mem_cons.mp he with rfl | hmem
      · rcases e with _ | b | n | s | es | fs
        · rfl
        · rfl
        · rfl
        · exact absurd rfl (hs s)
        · rfl
        · rfl
      · rcases x with _ | b | n | s | es | fs <;> try rfl
        rw [stripAll?, ih hmem]

theorem stripAll?_strings (ss : List (List Char)) :
    stripAll? (ss.map Json.str) = some ((ss.map pyStrip).filter (fun r => r ≠ [])) := by
  induction ss with
  | nil => rfl
  | cons s rest ih =>
      by_cases hs : pyStrip s = [] <;>
        simp [stripAll?, ih, hs, List.filter_cons]

/-- C10: `load_rules` is total and always yields non-empty stripped
strings: every returned element is non-empty and fixed by stripping; a
missing file, an unreadable or unparsable file, a non-array document, and
an array with a non-string element each yield `[]`; an array of strings
yields its stripped elements, empties removed, in order. -/
theorem C10_load_rules_total_and_stripped :
    (∀ (f : RulesFile) (r : List Char), r ∈ load_rules f → r ≠ [] ∧ pyStrip r = r) ∧
    load_rules .missing = [] ∧
    load_rules .unreadable = [] ∧
    (∀ v : Json, (∀ l, v ≠ Json.arr l) → load_rules (.parsed v) = []) ∧
    (∀ (l : List Json) (e : Json), e ∈ l → (∀ s, e ≠ Json.str s) →
      load_rules (.parsed (.arr l)) = []) ∧
    (∀ ss : List (List Char), load_rules (.parsed (.arr (ss.map Json.str))) =
      (ss.map pyStrip).filter (fun r => r ≠ [])) := by
  refine ⟨?_, rfl, rfl, ?_, ?_, ?_⟩
  · intro f r hr
    rcases f with _ | _ | v
    · cases hr
    · cases hr
    · rcases v with _ | b | n | s | es | fs
      · cases hr
      · cases hr
      · cases hr
      · cases hr
      · have hr' : r ∈ (match stripAll? es with
            | some out => out
            | none => ([] : List (List Char))) := hr
        rcases hs : stripAll? es with _ | out
        · rw [hs] at hr'
          cases hr'
        · rw [hs] at hr'
          have hr2 : r ∈ out := hr'
          obtain ⟨hne, s, rfl⟩ := stripAll?_mem hs r hr2
          exact ⟨hne, pyStrip_idem s⟩
      · cases hr
  · intro v hv
    rcases v with _ | b | n | s | es | fs <;> try rfl
    exact absurd rfl (hv es)
  · intro l e he hs
    have h0 := stripAll?_non_string he hs
    show (match stripAll? l with
      | some out => out
      | none => ([] : List (List Char))) = []
    rw [h0]
  · intro ss
    have h0 := stripAll?_strings ss
    show (match stripAll? (ss.map Json.str) with
      | some out => out
      | none => ([] : List (List Char))) = _
    rw [h0]

/-- Closed witness for C10: concrete runs through the membership clause,
the non-array clause, and the non-string-element clause. -/
theorem C10_load_rules_witness :
    (" a ".toList ∈ load_rules (.parsed (.arr [Json.str "  a  ".toList])) →
      " a ".toList ≠ [] ∧ pyStrip " a ".toList = " a ".toList) ∧
    load_rules (.parsed (Json.num 3)) = [] ∧
    load_rules (.parsed (.arr [Json.str "a".toList, Json.num 1])) = [] ∧
    load_rules (.parsed (.arr ([" a ".toList, "  ".toList].map Json.str))) =
      ["a".toList] := by
  refine ⟨C10_load_rules_total_and_stripped.1 _ _, ?_, ?_, ?_⟩
  · exact C10_load_rules_total_and_stripped.2.2.2.1 (Json.num 3)
      (fun l h => Json.noConfusion h)
  · exact C10_load_rules_total_and_stripped.2.2.2.2.1
      [Json.str "a".toList, Json.num 1] (Json.num 1) (by simp)
      (fun s h => Json.noConfusion h)
  · have := C10_load_rules_total_and_stripped.2.2.2.2.2 [" a ".toList, "  ".toList]
    rw [this]
    decide

/-- One step of the rule collection loop in `save_rules_from_settings_ui`:
strip the entry field, skip it when empty or already collected, otherwise
append it. -/
def collect_step (rules : List (List Char)) (e : List Char) : List (List Char) :=
  let r := pyStrip e
  if r ≠ [] ∧ r ∉ rules then rules ++ [r] else rules

/-- The rules gathered from the (five) settings entry fields. -/
def collect_rules (entries : List (List Char)) : List (List Char) :=
  entries.foldl collect_step []

/-- Reference dedup that keeps the first occurrence of each element. -/
def firstDedup : List (List Char) → List (List Char)
  | [] => []
  | x :: xs => x :: firstDedup (xs.filter (fun y => y ≠ x))
termination_by l => l.length
decreasing_by
  exact Nat.lt_succ_of_le (List.length_filter_le _ _)

theorem firstDedup_cons (x : List Char) (xs : List (List Char)) :
    firstDedup (x :: xs) = x :: firstDedup (xs.filter (fun y => y ≠ x)) := by
  rw [firstDedup]

theorem filter_notmem_append (L acc : List (List Char)) (r : List Char) :
    (L.filter (fun y => y ∉ acc)).filter (fun y => y ≠ r) =
      L.filter (fun y => y ∉ acc ++ [r]) := by
  induction L with
  | nil => rfl
  | cons a L ih =>
      by_cases h1 : a ∈ acc
      · have e1 : List.filter (fun y => y ∉ acc) (a :: L) =
            List.filter (fun y => y ∉ acc) L :=
          List.filter_cons_of_neg (by simpa using h1)
        have e2 : List.filter (fun y => y ∉ acc ++ [r]) (a :: L) =
            List.filter (fun y => y ∉ acc ++ [r]) L :=
          List.filter_cons_of_neg (by simp [h1])
        rw [e1, e2, ih]
      · have e1 : List.filter (fun y => y ∉ acc) (a :: L) =
            a :: List.filter (fun y => y ∉ acc) L :=
          List.filter_cons_of_pos (by simpa using h1)
        by_cases h2 : a = r
        · subst h2
          have e2 : List.filter (fun y => y ≠ a)
                (a :: List.filter (fun y => y ∉ acc) L) =
              List.filter (fun y => y ≠ a) (List.filter (fun y => y ∉ acc) L) :=
            List.filter_cons_of_neg (by simp)
          have e3 : List.filter (fun y => y ∉ acc ++ [a]) (a :: L) =
              List.filter (fun y => y ∉ acc ++ [a]) L :=
            List.filter_cons_of_neg (by simp)
          rw [e1, e2, e3, ih]
        · have e2 : List.filter (fun y => y ≠ r)
                (a :: List.filter (fun y => y ∉ acc) L) =
              a :: List.filter (fun y => y ≠ r) (List.filter (fun y => y ∉ acc) L) :=
            List.filter_cons_of_pos (by simpa using h2)
          have e3 : List.filter (fun y => y ∉ acc ++ [r]) (a :: L) =
              a :: List.filter (fun y => y ∉ acc ++ [r]) L :=
            List.filter_cons_of_pos (by simp [h1, h2])
          rw [e1, e2, e3, ih]

theorem collect_foldl (l : List (List Char)) :
    ∀ acc : List (List Char),
      l.foldl collect_step acc =
        acc ++ firstDedup (((l.map pyStrip).filter (fun y => y ≠ [])).filter
          (fun y => y ∉ acc)) := by
  induction l with
  | nil => intro acc; simp [firstDedup]
  | cons e l ih =>
      intro acc
      rw [List.foldl_cons]
      by_cases h1 : pyStrip e = []
      · have hstep : collect_step acc e = acc := by
          unfold collect_step
          rw [if_neg]
          simp [h1]
        rw [hstep, ih acc, List.map_cons, List.filter_cons_of_neg (by simpa using h1)]
      · by_cases h2 : pyStrip e ∈ acc
        · have hstep : collect_step acc e = acc := by
            unfold collect_step
            rw [if_neg]
            simp [h2]
          rw [hstep, ih acc, List.map_cons,
            List.filter_cons_of_pos (by simpa using h1),
            List.filter_cons_of_neg (by simpa using h2)]
        · have hstep : collect_step acc e = acc ++ [pyStrip e] := by
            unfold collect_step
            rw [if_pos ⟨h1, h2⟩]
          rw [hstep, ih (acc ++ [pyStrip e]), List.map_cons,
            List.filter_cons_of_pos (by simpa using h1),
            List.filter_cons_of_pos (by simpa using h2),
            firstDedup_cons, filter_notmem_append]
          simp

/-! ## Persistence side effects (C3, C9)

Each save helper wraps its file write in `try/except`.  We model the write
outcome as a boolean input and return the observable side effects. -/

inductive SideEffect where
  /-- A `print` to the operator console. -/
  | consoleLog (text : List Char)
  /-- A `messagebox.showerror` dialog. -/
  | uiErrorDialog (title text : List Char)
  /-- An `add_message(..., "system")` chat line. -/
  | uiSystemMessage (text : List Char)
deriving DecidableEq, Repr

/-- Whether an effect is visible in the UI (anything but a console print). -/
def is_ui_effect : SideEffect → Bool
  | .consoleLog _ => false
  | .uiErrorDialog _ _ => true
  | .uiSystemMessage _ => true

/-- Method `save_chat_history`: a failed write is printed to the console and
swallowed. -/
def save_chat_history_effects (writeOk : Bool) : List SideEffect :=
  if writeOk then [] else [.consoleLog "Error saving chat history: ".toList]

/-- Method `save_task_history`: a failed write is printed to the console and
swallowed. -/
def save_task_history_effects (writeOk : Bool) : List SideEffect :=
  if writeOk then [] else [.consoleLog "Error saving task history: ".toList]

/-- Method `save_settings_to_file`: a failed write is printed to the console and
swallowed. -/
def save_settings_to_file_effects (writeOk : Bool) : List SideEffect :=
  if writeOk then [] else [.consoleLog "Error saving settings: ".toList]

/-- Method `_save_rules_to_file`: returns the written document, the effects, and
whether the exception was re-raised (it prints, then `raise`s). -/
def save_rules_to_file_run (rules_list : List (List Char)) (writeOk : Bool) :
    Option (List (List Char)) × List SideEffect × Bool :=
  if writeOk then (some rules_list, [], false)
  else (none, [.consoleLog "Error saving rules to rules.json: ".toList], true)

structure RulesUiRun where
  effects : List SideEffect
  /-- Document written to `rules.json`, when the write succeeded. -/
  file_written : Option (List (List Char))
  /-- New value of `settings.rules`, when the code reached that update. -/
  settings_rules : Option (List (List Char))
deriving DecidableEq, Repr

/-- Method `save_rules_from_settings_ui`: collect the rules, write them to
`rules.json`, then update the in-memory settings and report success; a
re-raised write failure is caught and shown in an error dialog, skipping
the settings update. -/
def save_rules_from_settings_ui_run (entries : List (List Char)) (writeOk : Bool) :
    RulesUiRun :=
  let rules := collect_rules entries
  let fs := save_rules_to_file_run rules writeOk
  if fs.2.2 then
    ⟨fs.2.1 ++ [.uiErrorDialog "Error".toList "Failed to save rules: ".toList],
      fs.1, none⟩
  else
    ⟨fs.2.1 ++ [.uiSystemMessage ("Saved ".toList ++ (toString rules.length).toList
        ++ " rules successfully.".toList)],
      fs.1, some rules⟩

/-- C9: a successful save through the settings UI stores, both to
`rules.json` and to the in-memory settings, exactly the stripped non-empty
entry texts with later duplicates removed, in field order. -/
theorem C9_rules_saved_stripped_dedup (entries : List (List Char)) :
    (save_rules_from_settings_ui_run entries true).file_written =
      some (firstDedup ((entries.map pyStrip).filter (fun y => y ≠ []))) ∧
    (save_rules_from_settings_ui_run entries true).settings_rules =
      some (firstDedup ((entries.map pyStrip).filter (fun y => y ≠ []))) := by
  have hc : collect_rules entries =
      firstDedup ((entries.map pyStrip).filter (fun y => y ≠ [])) := by
    rw [collect_rules, collect_foldl entries []]
    have hid : ((entries.map pyStrip).filter (fun y => y ≠ [])).filter
        (fun y => y ∉ ([] : List (List Char))) =
        (entries.map pyStrip).filter (fun y => y ≠ []) := by
      simp
    rw [hid]
    rfl
  constructor
  · show (save_rules_to_file_run (collect_rules entries) true).1 = _
    rw [hc]
    rfl
  · show some (collect_rules entries) = _
    rw [hc]

/-- C3 counterexample: a failed rules save IS surfaced to the UI — the
settings dialog shows a `messagebox` error. -/
theorem C3_counterexample_rules_dialog :
    SideEffect.uiErrorDialog "Error".toList "Failed to save rules: ".toList
      ∈ (save_rules_from_settings_ui_run [] false).effects := by
  decide

/-- C3 (amended): failed settings, chat-history and task-history saves are
logged to the operator console only and silently lost, but a failed rules
save is re-raised and surfaced to the UI as an error dialog (and the save
is still lost: nothing is written and the settings are not updated). -/
theorem C3_persistence_failure_surfacing (entries : List (List Char)) :
    (save_chat_history_effects false).all (fun e => !is_ui_effect e) = true ∧
    (save_task_history_effects false).all (fun e => !is_ui_effect e) = true ∧
    (save_settings_to_file_effects false).all (fun e => !is_ui_effect e) = true ∧
    (save_rules_from_settings_ui_run entries false).effects.any is_ui_effect = true ∧
    (save_rules_from_settings_ui_run entries false).file_written = none ∧
    (save_rules_from_settings_ui_run entries false).settings_rules = none := by
  exact ⟨rfl, rfl, rfl, rfl, rfl, rfl⟩

/-! ## The GUI state machine (`send_command`, `start_task`, `stop_task`)

State of the `WindowsAgentGUI` object, restricted to the fields these
methods read or write.  Messages capture their sender, text and kind;
timestamps are wall-clock and left out of the model.  `launched` records
whether the modelled call started a worker thread. -/

structure TaskSlot where
  /-- Python `task.done()`. -/
  done : Bool
  /-- Whether `task.cancel()` has been called. -/
  cancel_requested : Bool
  /-- Whether the blocking adapter call inside the task has already
  returned.  None of the modelled operations consult it. -/
  adapter_returned : Bool
deriving DecidableEq, Repr

structure ChatMsg where
  sender : List Char
  text : List Char
  kind : List Char
deriving DecidableEq, Repr

structure AppState where
  command_entry : List Char
  current_api_key : List Char
  deps_available : Bool
  /-- Whether `self.agent` is set. -/
  agent : Bool
  /-- Whether constructing the LLM and the Agent would succeed. -/
  agent_init_ok : Bool
  is_task_running : Bool
  has_task_thread : Bool
  current_task : Option TaskSlot
  task_history : List (List Char)
  chat_messages : List ChatMsg
  /-- Whether `show_settings` was called during the modelled call. -/
  settings_opened : Bool
  /-- Whether `messagebox.showwarning` was shown during the modelled call. -/
  warning_shown : Bool
  start_enabled : Bool
  stop_enabled : Bool
  /-- Whether a worker thread was started during the modelled call. -/
  launched : Bool
deriving DecidableEq, Repr

def placeholderText : List Char := "Message Luma".toList

def add_message (s : AppState) (sender text kind : List Char) : AppState :=
  { s with chat_messages := s.chat_messages ++ [⟨sender, text, kind⟩] }

def update_button_states (s : AppState) : AppState :=
  if s.is_task_running then { s with start_enabled := false, stop_enabled := true }
  else { s with start_enabled := true, stop_enabled := false }

/-- Method `send_command` (lines 890-926): validate the stripped command, require
an API key (else prompt the settings dialog), reset the entry to its
placeholder, echo the command, require the dependencies, append to task
history, and launch a worker thread only when no task is running. -/
def send_command (s : AppState) : AppState :=
  let command := pyStrip s.command_entry
  if command = [] ∨ command = placeholderText then s
  else if s.current_api_key = [] then
    { add_message s "System".toList
        "Error: Please set your Google API key in Settings before starting a task.".toList
        "error".toList
      with settings_opened := true }
  else
    let s1 := { s with command_entry := placeholderText }
    let s2 := add_message s1 "User".toList command "user".toList
    if s2.deps_available = false then
      add_message s2 "System".toList
        "Please install required dependencies: langchain-google-genai, windows-use".toList
        "error".toList
    else
      let s3 := { s2 with task_history := s2.task_history ++ [command] }
      if s3.is_task_running = false then
        { s3 with launched := true, has_task_thread := true }
      else s3

/-- Method `initialize_agent`: catches its own failures and only reports them as
chat messages; on success it sets `self.agent`. -/
def initialize_agent (s : AppState) : AppState :=
  if s.deps_available = false then
    add_message s "System".toList
      "Agent dependencies not available. Please install required packages.".toList
      "error".toList
  else if s.agent_init_ok then
    add_message { s with agent := true } "System".toList
      "Agent initialized successfully.".toList "system".toList
  else
    add_message s "System".toList "Failed to initialize agent: ".toList "error".toList

/-- Method `start_task` (lines 1019-1046): reject an empty or placeholder entry
with a warning box, require an API key (else prompt the settings dialog),
initialize the agent when needed, and delegate to `send_command`. -/
def start_task (s : AppState) : AppState :=
  if pyStrip s.command_entry = [] ∨ s.command_entry = placeholderText then
    { s with warning_shown := true }
  else if s.current_api_key = [] then
    { add_message s "System".toList
        "⚠️ API key is required to run tasks. Please enter your API key.".toList
        "error".toList
      with settings_opened := true }
  else
    let s1 := if s.agent = false ∧ s.deps_available = true then initialize_agent s else s
    if s1.agent = false then
      add_message s1 "System".toList
        "❌ Agent initialization failed. Please check your API key and try again.".toList
        "error".toList
    else
      send_command s1

/-- Python `if self.current_task and not self.current_task.done():
self.current_task.cancel()`. -/
def cancel_if_active : Option TaskSlot → Option TaskSlot
  | some t => if t.done = false then some { t with cancel_requested := true } else some t
  | none => none

/-- Method `stop_task` (lines 1048-1059): when a task is running on a worker
thread, emit the stopping notice, cancel the asyncio task, clear
`is_task_running` and refresh the buttons, all synchronously. -/
def stop_task (s : AppState) : AppState :=
  if s.is_task_running = true ∧ s.has_task_thread = true then
    let s1 := add_message s "System".toList
      "🛑 Stopping task... Please wait...".toList "system".toList
    let s2 := { s1 with current_task := cancel_if_active s1.current_task }
    update_button_states { s2 with is_task_running := false }
  else s

/-! ## Task history display and persistence (C8) -/

/-- Method `update_task_history_display`: the entries rendered in the sidebar,
top to bottom — the last 8 history entries (all of them when 8 or fewer),
iterated in reversed order. -/
def update_task_history_display (history : List (List Char)) : List (List Char) :=
  let recent_tasks :=
    if history.length > 8 then history.drop (history.length - 8) else history
  recent_tasks.reverse

/-- Method `save_task_history`: the document written to `task_history.json` is
the full, untruncated history. -/
def save_task_history_doc (history : List (List Char)) : List (List Char) :=
  history

/-- C8: the sidebar shows exactly the last 8 entries (all of them when
there are 8 or fewer), most recent first, while the persisted document is
the full history. -/
theorem C8_sidebar_last_eight_most_recent_first (history : List (List Char)) :
    save_task_history_doc history = history ∧
    (update_task_history_display history).length = min 8 history.length ∧
    ∀ i : Nat, i < (update_task_history_display history).length →
      (update_task_history_display history)[i]? =
        history[history.length - 1 - i]? := by
  refine ⟨rfl, ?_, ?_⟩
  · simp only [update_task_history_display]
    by_cases h : history.length > 8 <;> simp [h] <;> omega
  · intro i hi
    simp only [update_task_history_display] at hi ⊢
    by_cases h : history.length > 8
    · rw [if_pos h] at hi ⊢
      have hlen : (history.drop (history.length - 8)).length = 8 := by
        simp
        omega
      have hi8 : i < (history.drop (history.length - 8)).length := by
        simpa [hlen] using hi
      rw [List.getElem?_reverse hi8, List.getElem?_drop]
      congr 1
      rw [hlen]
      omega
    · rw [if_neg h] at hi ⊢
      have hih : i < history.length := by simpa using hi
      rw [List.getElem?_reverse hih]

def c8_history : List (List Char) :=
  ["t0".toList, "t1".toList, "t2".toList, "t3".toList, "t4".toList,
   "t5".toList, "t6".toList, "t7".toList, "t8".toList, "t9".toList]

/-- Closed witness for C8 on a ten-entry history. -/
theorem C8_sidebar_witness :
    (update_task_history_display c8_history).length = min 8 c8_history.length ∧
    (update_task_history_display c8_history)[0]? =
      c8_history[c8_history.length - 1 - 0]? :=
  ⟨(C8_sidebar_last_eight_most_recent_first c8_history).2.1,
   (C8_sidebar_last_eight_most_recent_first c8_history).2.2 0 (by decide)⟩

/-! ## C1: submitting a command while a task is running -/

def c1_state : AppState where
  command_entry := "open notepad".toList
  current_api_key := "k".toList
  deps_available := true
  agent := true
  agent_init_ok := true
  is_task_running := true
  has_task_thread := true
  current_task := some ⟨false, false, false⟩
  task_history := []
  chat_messages := []
  settings_opened := false
  warning_shown := false
  start_enabled := false
  stop_enabled := true
  launched := false

/-- C1 counterexample: a valid command submitted while a task is running
does NOT leave the task history unchanged — `send_command` appends the
command before checking `is_task_running`, even though no worker thread is
launched. -/
theorem C1_counterexample_history_mutated :
    c1_state.is_task_running = true ∧
    (send_command c1_state).launched = false ∧
    (send_command c1_state).task_history ≠ c1_state.task_history := by
  decide

/-- C1 (amended): a valid command submitted while a task is running is
rejected in the sense that no worker thread is launched, but the command
is still appended to the task-history sequence. -/
theorem C1_running_rejects_but_appends (s : AppState)
    (hrun : s.is_task_running = true)
    (h1 : pyStrip s.command_entry ≠ [])
    (h2 : pyStrip s.command_entry ≠ placeholderText)
    (hkey : s.current_api_key ≠ [])
    (hdeps : s.deps_available = true)
    (hl : s.launched = false) :
    (send_command s).launched = false ∧
    (send_command s).task_history = s.task_history ++ [pyStrip s.command_entry] := by
  simp [send_command, add_message, h1, h2, hkey, hdeps, hrun, hl]

/-- Closed witness for the amended C1 at a concrete running state. -/
theorem C1_running_rejects_but_appends_witness :
    (send_command c1_state).launched = false ∧
    (send_command c1_state).task_history =
      c1_state.task_history ++ [pyStrip c1_state.command_entry] :=
  C1_running_rejects_but_appends c1_state rfl (by decide) (by decide) (by decide)
    rfl rfl

/-! ## C7: `start_task` rejections -/

/-- C7: `start_task` launches no worker when the stripped entry is empty,
the entry is the placeholder text, a task is already running, or no API
key is configured; and with a valid command but no API key it opens the
settings dialog as a configuration prompt. -/
theorem C7_start_task_rejections (s : AppState) (hl : s.launched = false) :
    ((pyStrip s.command_entry = [] ∨ s.command_entry = placeholderText ∨
        s.is_task_running = true ∨ s.current_api_key = []) →
      (start_task s).launched = false) ∧
    ((s.current_api_key = [] ∧ pyStrip s.command_entry ≠ [] ∧
        s.command_entry ≠ placeholderText) →
      (start_task s).settings_opened = true) := by
  constructor
  · intro h
    unfold start_task send_command initialize_agent add_message
    split_ifs <;> simp_all <;> split_ifs <;> simp_all
  · rintro ⟨hk, h1, h2⟩
    unfold start_task add_message
    rw [if_neg (by simp [h1, h2]), if_pos hk]

def c7_state : AppState where
  command_entry := "open notepad".toList
  current_api_key := []
  deps_available := true
  agent := true
  agent_init_ok := true
  is_task_running := false
  has_task_thread := false
  current_task := none
  task_history := []
  chat_messages := []
  settings_opened := false
  warning_shown := false
  start_enabled := true
  stop_enabled := false
  launched := false

/-- Closed witness for C7: a valid command with no API key is rejected and
prompts the settings dialog. -/
theorem C7_start_task_rejections_witness :
    (start_task c7_state).launched = false ∧
    (start_task c7_state).settings_opened = true :=
  ⟨(C7_start_task_rejections c7_state rfl).1 (by decide),
   (C7_start_task_rejections c7_state rfl).2 (by decide)⟩

/-! ## C6: `stop_task` while running -/

/-- C6: calling `stop_task` while a task runs on a worker thread requests
cancellation on the pending asyncio task, immediately flips the displayed
state to Idle (start enabled, stop disabled, `is_task_running` false), and
emits the stopping notice — independently of whether the underlying
adapter call has returned (`t.adapter_returned` is arbitrary), and without
waiting for the worker. -/
theorem C6_stop_flips_to_idle (s : AppState) (t : TaskSlot)
    (hrun : s.is_task_running = true) (hth : s.has_task_thread = true)
    (htask : s.current_task = some t) (hdone : t.done = false) :
    (stop_task s).is_task_running = false ∧
    (stop_task s).start_enabled = true ∧
    (stop_task s).stop_enabled = false ∧
    (stop_task s).current_task = some { t with cancel_requested := true } ∧
    (stop_task s).chat_messages = s.chat_messages ++
      [⟨"System".toList, "🛑 Stopping task... Please wait...".toList,
        "system".toList⟩] := by
  simp [stop_task, add_message, update_button_states, cancel_if_active,
    htask, hdone, hrun, hth]

def c6_state : AppState where
  command_entry := placeholderText
  current_api_key := "k".toList
  deps_available := true
  agent := true
  agent_init_ok := true
  is_task_running := true
  has_task_thread := true
  current_task := some ⟨false, false, true⟩
  task_history := ["open notepad".toList]
  chat_messages := []
  settings_opened := false
  warning_shown := false
  start_enabled := false
  stop_enabled := true
  launched := false

/-- Closed witness for C6 at a running state whose adapter call has
already returned. -/
theorem C6_stop_flips_to_idle_witness :
    (stop_task c6_state).is_task_running = false ∧
    (stop_task c6_state).start_enabled = true ∧
    (stop_task c6_state).stop_enabled = false ∧
    (stop_task c6_state).current_task = some ⟨false, true, true⟩ ∧
    (stop_task c6_state).chat_messages = c6_state.chat_messages ++
      [⟨"System".toList, "🛑 Stopping task... Please wait...".toList,
        "system".toList⟩] :=
  C6_stop_flips_to_idle c6_state ⟨false, false, true⟩ rfl rfl rfl rfl

end Luma
